import Mathlib

/-!
Verification of the retrio crate: a wrapper `Retry<T>` around readers
(buffered or not) and writers that retries the primitive operation on IO
errors of kind `Interrupted`, and forwards every other method to the
wrapped value.

The underlying resource is modelled as a state type `σ` together with the
trait method being wrapped (a function from state and arguments to a
result, any effect on the caller's buffer, and a new state).  The retry
loops of the source are unbounded, so they are embedded as fuel-indexed
functions returning `Option`: `none` models the loop not having returned
within the given number of attempts, and non-termination is the statement
that every fuel amount yields `none`.
-/

/-- Error kinds; `Interrupted` is the one the wrapper retries on.  The
other constructors stand for the non-interrupted kinds of `io::ErrorKind`. -/
inductive ErrorKind where
  | Interrupted
  | PermissionDenied
  | NotFound
  | WouldBlock
  | Other
  deriving DecidableEq, Repr

/-- An `io::Error` value: its kind together with a payload standing for
everything else carried by the error (message, OS code).  Keeping the
payload lets theorems state that errors are propagated unchanged, not
merely errors of the same kind. -/
structure IOError where
  kind : ErrorKind
  payload : Nat
  deriving DecidableEq, Repr

deriving instance DecidableEq for Except

/-- Outcome of one underlying `read` attempt: the returned
`io::Result<usize>`, the contents of the caller's buffer after the attempt
(the attempt may write into the mutable slice), and the reader's new
state. -/
structure ReadStep (σ : Type) where
  result : Except IOError Nat
  buf : List Nat
  state : σ
  deriving DecidableEq, Repr

/-- The wrapper `Retry<T>`: holds exactly the wrapped value, nothing
else. -/
structure Retry (T : Type) where
  inner : T
  deriving DecidableEq, Repr

/-- `Retry::new`: wraps a value. -/
def Retry.new {T : Type} (inner : T) : Retry T :=
  ⟨inner⟩

/-- `Retry::into_inner`: returns the inner value. -/
def Retry.into_inner {T : Type} (r : Retry T) : T :=
  r.inner

/-- `<Retry<T> as Read>::read`: loop `match inner.read(buf)`, `continue`
when the attempt failed with kind `Interrupted`, return any other result.
`rd` is the underlying reader's `read`; the loop is fuel-indexed. -/
def Retry.read {σ : Type} (rd : σ → List Nat → ReadStep σ) :
    Nat → σ → List Nat → Option (ReadStep σ)
  | 0, _, _ => none
  | fuel + 1, s, buf =>
    match rd s buf with
    | ⟨Except.error e, b, s2⟩ =>
      if e.kind = ErrorKind.Interrupted then Retry.read rd fuel s2 b
      else some ⟨Except.error e, b, s2⟩
    | st => some st

/-- As `Retry.read`, additionally recording the buffer argument handed to
each underlying attempt, in order. -/
def Retry.readTrace {σ : Type} (rd : σ → List Nat → ReadStep σ) :
    Nat → σ → List Nat → Option (ReadStep σ) × List (List Nat)
  | 0, _, _ => (none, [])
  | fuel + 1, s, buf =>
    match rd s buf with
    | ⟨Except.error e, b, s2⟩ =>
      if e.kind = ErrorKind.Interrupted then
        let r := Retry.readTrace rd fuel s2 b
        (r.1, buf :: r.2)
      else (some ⟨Except.error e, b, s2⟩, [buf])
    | _ => (some (rd s buf), [buf])

/-- `<Retry<T> as Write>::write`: same retry discipline as `read`.  The
argument slice is immutable (`&[u8]`), so an attempt returns only the
`io::Result<usize>` and the writer's new state. -/
def Retry.write {σ : Type} (wr : σ → List Nat → Except IOError Nat × σ) :
    Nat → σ → List Nat → Option (Except IOError Nat × σ)
  | 0, _, _ => none
  | fuel + 1, s, buf =>
    match wr s buf with
    | (Except.error e, s2) =>
      if e.kind = ErrorKind.Interrupted then Retry.write wr fuel s2 buf
      else some (Except.error e, s2)
    | res => some res

/-- As `Retry.write`, additionally recording the slice argument handed to
each underlying attempt, in order. -/
def Retry.writeTrace {σ : Type} (wr : σ → List Nat → Except IOError Nat × σ) :
    Nat → σ → List Nat → Option (Except IOError Nat × σ) × List (List Nat)
  | 0, _, _ => (none, [])
  | fuel + 1, s, buf =>
    match wr s buf with
    | (Except.error e, s2) =>
      if e.kind = ErrorKind.Interrupted then
        let r := Retry.writeTrace wr fuel s2 buf
        (r.1, buf :: r.2)
      else (some (Except.error e, s2), [buf])
    | res => (some res, [buf])

/-- `<Retry<T> as BufRead>::fill_buf`: loop `match inner.fill_buf()`,
`break` on `Ok(_)`, `continue` on an `Interrupted` error, return any other
error; after the loop breaks, call `inner.fill_buf()` once more and return
its result.  `fb` is the underlying reader's `fill_buf`, returning the
borrowed view (modelled as the list of buffered bytes) and a new state. -/
def Retry.fill_buf {σ : Type} (fb : σ → Except IOError (List Nat) × σ) :
    Nat → σ → Option (Except IOError (List Nat) × σ)
  | 0, _ => none
  | fuel + 1, s =>
    match fb s with
    | (Except.ok _, s2) => some (fb s2)
    | (Except.error e, s2) =>
      if e.kind = ErrorKind.Interrupted then Retry.fill_buf fb fuel s2
      else some (Except.error e, s2)

/-- As `Retry.fill_buf`, additionally counting the calls made to the
underlying `fill_buf` (the post-loop re-query included). -/
def Retry.fillCount {σ : Type} (fb : σ → Except IOError (List Nat) × σ) :
    Nat → σ → Option (Except IOError (List Nat) × σ) × Nat
  | 0, _ => (none, 0)
  | fuel + 1, s =>
    match fb s with
    | (Except.ok _, s2) => (some (fb s2), 2)
    | (Except.error e, s2) =>
      if e.kind = ErrorKind.Interrupted then
        let r := Retry.fillCount fb fuel s2
        (r.1, r.2 + 1)
      else (some (Except.error e, s2), 1)

/-- `<Retry<T> as Read>::read_to_end`: `self.inner.read_to_end(buf)`.  The
underlying method takes the accumulator and returns the count result, the
new accumulator and the new state. -/
def Retry.read_to_end {σ : Type}
    (m : σ → List Nat → Except IOError Nat × List Nat × σ)
    (s : σ) (buf : List Nat) : Except IOError Nat × List Nat × σ :=
  m s buf

/-- `<Retry<T> as Read>::read_to_string`: `self.inner.read_to_string(buf)`. -/
def Retry.read_to_string {σ : Type}
    (m : σ → String → Except IOError Nat × String × σ)
    (s : σ) (buf : String) : Except IOError Nat × String × σ :=
  m s buf

/-- `<Retry<T> as Read>::read_exact`: `self.inner.read_exact(buf)`. -/
def Retry.read_exact {σ : Type}
    (m : σ → List Nat → Except IOError Unit × List Nat × σ)
    (s : σ) (buf : List Nat) : Except IOError Unit × List Nat × σ :=
  m s buf

/-- `<Retry<T> as BufRead>::consume`: `self.inner.consume(n)`. -/
def Retry.consume {σ : Type} (m : σ → Nat → σ) (s : σ) (n : Nat) : σ :=
  m s n

/-- `<Retry<T> as BufRead>::read_until`: `self.inner.read_until(byte, buf)`. -/
def Retry.read_until {σ : Type}
    (m : σ → Nat → List Nat → Except IOError Nat × List Nat × σ)
    (s : σ) (byte : Nat) (buf : List Nat) :
    Except IOError Nat × List Nat × σ :=
  m s byte buf

/-- `<Retry<T> as BufRead>::read_line`: `self.inner.read_line(buf)`. -/
def Retry.read_line {σ : Type}
    (m : σ → String → Except IOError Nat × String × σ)
    (s : σ) (buf : String) : Except IOError Nat × String × σ :=
  m s buf

/-- `<Retry<T> as Write>::flush`: `self.inner.flush()`. -/
def Retry.flush {σ : Type} (m : σ → Except IOError Unit × σ) (s : σ) :
    Except IOError Unit × σ :=
  m s

/-- `<Retry<T> as Write>::write_all`: `self.inner.write_all(buf)`. -/
def Retry.write_all {σ : Type}
    (m : σ → List Nat → Except IOError Unit × σ)
    (s : σ) (buf : List Nat) : Except IOError Unit × σ :=
  m s buf

/-- `<Retry<T> as Write>::write_fmt`: `self.inner.write_fmt(args)`. -/
def Retry.write_fmt {σ : Type}
    (m : σ → String → Except IOError Unit × σ)
    (s : σ) (args : String) : Except IOError Unit × σ :=
  m s args

/-- One prescribed outcome of an underlying read attempt: a success with
its count and the buffer contents it leaves behind, or an error. -/
inductive ReadOp where
  | ok (n : Nat) (buf : List Nat)
  | err (e : IOError)
  deriving DecidableEq, Repr

/-- A scripted underlying reader: attempts consume a list of prescribed
outcomes; an exhausted script reads 0 bytes (end of stream).  Failing
attempts leave the caller's buffer untouched, as the `Read` contract
requires. -/
def scriptRead : List ReadOp → List Nat → ReadStep (List ReadOp)
  | [], buf => ⟨Except.ok 0, buf, []⟩
  | ReadOp.ok n b :: rest, _ => ⟨Except.ok n, b, rest⟩
  | ReadOp.err e :: rest, buf => ⟨Except.error e, buf, rest⟩

/-- One prescribed outcome of an underlying write attempt. -/
inductive WriteOp where
  | ok (n : Nat)
  | err (e : IOError)
  deriving DecidableEq, Repr

/-- A scripted underlying writer; an exhausted script writes 0 bytes. -/
def scriptWrite : List WriteOp → List Nat → Except IOError Nat × List WriteOp
  | [], _ => (Except.ok 0, [])
  | WriteOp.ok n :: rest, _ => (Except.ok n, rest)
  | WriteOp.err e :: rest, _ => (Except.error e, rest)

/-- One prescribed outcome of an underlying `fill_buf` call: the buffered
view it exposes, or an error. -/
inductive FillOp where
  | ok (view : List Nat)
  | err (e : IOError)
  deriving DecidableEq, Repr

/-- A scripted underlying buffered reader; an exhausted script exposes an
empty view (end of stream). -/
def scriptFill : List FillOp → Except IOError (List Nat) × List FillOp
  | [] => (Except.ok [], [])
  | FillOp.ok v :: rest => (Except.ok v, rest)
  | FillOp.err e :: rest => (Except.error e, rest)

/-- An underlying reader whose every attempt fails with kind
`Interrupted`, leaving the buffer unchanged. -/
def alwaysInterruptedRead : Unit → List Nat → ReadStep Unit :=
  fun _ buf => ⟨Except.error ⟨ErrorKind.Interrupted, 0⟩, buf, ()⟩

/-- An underlying writer whose every attempt fails with kind
`Interrupted`. -/
def alwaysInterruptedWrite : Unit → List Nat → Except IOError Nat × Unit :=
  fun _ _ => (Except.error ⟨ErrorKind.Interrupted, 0⟩, ())

/-- An underlying buffered reader whose every `fill_buf` fails with kind
`Interrupted`. -/
def alwaysInterruptedFill : Unit → Except IOError (List Nat) × Unit :=
  fun _ => (Except.error ⟨ErrorKind.Interrupted, 0⟩, ())

/-- The result a terminal scripted read outcome produces. -/
def ReadOp.result : ReadOp → Except IOError Nat
  | ReadOp.ok n _ => Except.ok n
  | ReadOp.err e => Except.error e

/-- The buffer contents a scripted read outcome leaves, given the buffer
it was handed. -/
def ReadOp.bufAfter : ReadOp → List Nat → List Nat
  | ReadOp.ok _ b, _ => b
  | ReadOp.err _, buf => buf

/-- The result a scripted write outcome produces. -/
def WriteOp.result : WriteOp → Except IOError Nat
  | WriteOp.ok n => Except.ok n
  | WriteOp.err e => Except.error e

theorem readTrace_fst {σ : Type} (rd : σ → List Nat → ReadStep σ)
    (fuel : Nat) (s : σ) (buf : List Nat) :
    (Retry.readTrace rd fuel s buf).1 = Retry.read rd fuel s buf := by
  induction fuel generalizing s buf with
  | zero => rfl
  | succ fuel ih =>
    simp only [Retry.readTrace, Retry.read]
    rcases h : rd s buf with ⟨res, b, s2⟩
    rcases res with e | n
    · by_cases hk : e.kind = ErrorKind.Interrupted <;> simp [hk, ih]
    · simp [h]

theorem writeTrace_fst {σ : Type} (wr : σ → List Nat → Except IOError Nat × σ)
    (fuel : Nat) (s : σ) (buf : List Nat) :
    (Retry.writeTrace wr fuel s buf).1 = Retry.write wr fuel s buf := by
  induction fuel generalizing s with
  | zero => rfl
  | succ fuel ih =>
    simp only [Retry.writeTrace, Retry.write]
    rcases h : wr s buf with ⟨res, s2⟩
    rcases res with e | n
    · by_cases hk : e.kind = ErrorKind.Interrupted <;> simp [hk, ih]
    · simp

theorem fillCount_fst {σ : Type} (fb : σ → Except IOError (List Nat) × σ)
    (fuel : Nat) (s : σ) :
    (Retry.fillCount fb fuel s).1 = Retry.fill_buf fb fuel s := by
  induction fuel generalizing s with
  | zero => rfl
  | succ fuel ih =>
    simp only [Retry.fillCount, Retry.fill_buf]
    rcases h : fb s with ⟨res, s2⟩
    rcases res with e | v
    · by_cases hk : e.kind = ErrorKind.Interrupted <;> simp [hk, ih]
    · simp

theorem readTrace_script (pre : List IOError)
    (hpre : ∀ e ∈ pre, e.kind = ErrorKind.Interrupted) (t : ReadOp)
    (ht : ∀ e, t = ReadOp.err e → e.kind ≠ ErrorKind.Interrupted)
    (rest : List ReadOp) (buf : List Nat) (fuel : Nat)
    (hfuel : pre.length < fuel) :
    Retry.readTrace scriptRead fuel (pre.map ReadOp.err ++ t :: rest) buf
      = (some ⟨t.result, t.bufAfter buf, rest⟩,
          List.replicate (pre.length + 1) buf) := by
  induction pre generalizing fuel with
  | nil =>
    cases fuel with
    | zero => simp at hfuel
    | succ f =>
      cases t with
      | ok n b =>
        simp [Retry.readTrace, scriptRead, ReadOp.result, ReadOp.bufAfter]
      | err e =>
        have hne : e.kind ≠ ErrorKind.Interrupted := ht e rfl
        simp [Retry.readTrace, scriptRead, ReadOp.result, ReadOp.bufAfter, hne]
  | cons e0 pre ih =>
    cases fuel with
    | zero => simp at hfuel
    | succ f =>
      have he0 : e0.kind = ErrorKind.Interrupted := hpre e0 (by simp)
      have hf2 : pre.length < f := by
        simp only [List.length_cons] at hfuel
        exact Nat.lt_of_succ_lt_succ hfuel
      have ihp := ih (fun e he => hpre e (by simp [he])) f hf2
      simp [Retry.readTrace, scriptRead, he0, ihp, List.replicate]

theorem writeTrace_script (pre : List IOError)
    (hpre : ∀ e ∈ pre, e.kind = ErrorKind.Interrupted) (t : WriteOp)
    (ht : ∀ e, t = WriteOp.err e → e.kind ≠ ErrorKind.Interrupted)
    (rest : List WriteOp) (buf : List Nat) (fuel : Nat)
    (hfuel : pre.length < fuel) :
    Retry.writeTrace scriptWrite fuel (pre.map WriteOp.err ++ t :: rest) buf
      = (some (t.result, rest), List.replicate (pre.length + 1) buf) := by
  induction pre generalizing fuel with
  | nil =>
    cases fuel with
    | zero => simp at hfuel
    | succ f =>
      cases t with
      | ok n =>
        simp [Retry.writeTrace, scriptWrite, WriteOp.result]
      | err e =>
        have hne : e.kind ≠ ErrorKind.Interrupted := ht e rfl
        simp [Retry.writeTrace, scriptWrite, WriteOp.result, hne]
  | cons e0 pre ih =>
    cases fuel with
    | zero => simp at hfuel
    | succ f =>
      have he0 : e0.kind = ErrorKind.Interrupted := hpre e0 (by simp)
      have hf2 : pre.length < f := by
        simp only [List.length_cons] at hfuel
        exact Nat.lt_of_succ_lt_succ hfuel
      have ihp := ih (fun e he => hpre e (by simp [he])) f hf2
      simp [Retry.writeTrace, scriptWrite, he0, ihp, List.replicate]

theorem fillCount_script_ok (pre : List IOError)
    (hpre : ∀ e ∈ pre, e.kind = ErrorKind.Interrupted) (v : List Nat)
    (rest : List FillOp) (fuel : Nat) (hfuel : pre.length < fuel) :
    Retry.fillCount scriptFill fuel (pre.map FillOp.err ++ FillOp.ok v :: rest)
      = (some (scriptFill rest), pre.length + 2) := by
  induction pre generalizing fuel with
  | nil =>
    cases fuel with
    | zero => simp at hfuel
    | succ f => simp [Retry.fillCount, scriptFill]
  | cons e0 pre ih =>
    cases fuel with
    | zero => simp at hfuel
    | succ f =>
      have he0 : e0.kind = ErrorKind.Interrupted := hpre e0 (by simp)
      have hf2 : pre.length < f := by
        simp only [List.length_cons] at hfuel
        exact Nat.lt_of_succ_lt_succ hfuel
      have ihp := ih (fun e he => hpre e (by simp [he])) f hf2
      simp [Retry.fillCount, scriptFill, he0, ihp]

theorem fillCount_script_err (pre : List IOError)
    (hpre : ∀ e ∈ pre, e.kind = ErrorKind.Interrupted) (e : IOError)
    (he : e.kind ≠ ErrorKind.Interrupted)
    (rest : List FillOp) (fuel : Nat) (hfuel : pre.length < fuel) :
    Retry.fillCount scriptFill fuel (pre.map FillOp.err ++ FillOp.err e :: rest)
      = (some (Except.error e, rest), pre.length + 1) := by
  induction pre generalizing fuel with
  | nil =>
    cases fuel with
    | zero => simp at hfuel
    | succ f => simp [Retry.fillCount, scriptFill, he]
  | cons e0 pre ih =>
    cases fuel with
    | zero => simp at hfuel
    | succ f =>
      have he0 : e0.kind = ErrorKind.Interrupted := hpre e0 (by simp)
      have hf2 : pre.length < f := by
        simp only [List.length_cons] at hfuel
        exact Nat.lt_of_succ_lt_succ hfuel
      have ihp := ih (fun e2 he2 => hpre e2 (by simp [he2])) f hf2
      simp [Retry.fillCount, scriptFill, he0, ihp]

theorem read_result_not_interrupted {σ : Type}
    (rd : σ → List Nat → ReadStep σ) (fuel : Nat) (s : σ) (buf : List Nat)
    (st : ReadStep σ) (h : Retry.read rd fuel s buf = some st) (e : IOError)
    (he : st.result = Except.error e) : e.kind ≠ ErrorKind.Interrupted := by
  induction fuel generalizing s buf with
  | zero => simp [Retry.read] at h
  | succ fuel ih =>
    rcases h2 : rd s buf with ⟨res, b, s2⟩
    rcases res with er | n
    · by_cases hk : er.kind = ErrorKind.Interrupted
      · rw [Retry.read, h2] at h
        simp [hk] at h
        exact ih s2 b h
      · rw [Retry.read, h2] at h
        simp [hk] at h
        rw [← h] at he
        simp at he
        rw [← he]
        exact hk
    · rw [Retry.read, h2] at h
      simp at h
      rw [← h] at he
      simp at he

theorem write_result_not_interrupted {σ : Type}
    (wr : σ → List Nat → Except IOError Nat × σ) (fuel : Nat) (s : σ)
    (buf : List Nat) (r : Except IOError Nat × σ)
    (h : Retry.write wr fuel s buf = some r) (e : IOError)
    (he : r.1 = Except.error e) : e.kind ≠ ErrorKind.Interrupted := by
  induction fuel generalizing s with
  | zero => simp [Retry.write] at h
  | succ fuel ih =>
    rcases h2 : wr s buf with ⟨res, s2⟩
    rcases res with er | n
    · by_cases hk : er.kind = ErrorKind.Interrupted
      · rw [Retry.write, h2] at h
        simp [hk] at h
        exact ih s2 h
      · rw [Retry.write, h2] at h
        simp [hk] at h
        rw [← h] at he
        simp at he
        rwa [← he]
    · rw [Retry.write, h2] at h
      simp at h
      rw [← h] at he
      simp at he

theorem fill_buf_interrupted_from_requery {σ : Type}
    (fb : σ → Except IOError (List Nat) × σ) (fuel : Nat) (s : σ)
    (e : IOError) (s2 : σ)
    (h : Retry.fill_buf fb fuel s = some (Except.error e, s2))
    (he : e.kind = ErrorKind.Interrupted) :
    ∃ s1 v s3, fb s1 = (Except.ok v, s3) ∧ fb s3 = (Except.error e, s2) := by
  induction fuel generalizing s with
  | zero => simp [Retry.fill_buf] at h
  | succ fuel ih =>
    rcases h2 : fb s with ⟨res, s3⟩
    rcases res with er | v
    · by_cases hk : er.kind = ErrorKind.Interrupted
      · rw [Retry.fill_buf, h2] at h
        simp [hk] at h
        exact ih s3 h
      · rw [Retry.fill_buf, h2] at h
        simp [hk] at h
        rw [h.1] at hk
        exact absurd he hk
    · rw [Retry.fill_buf, h2] at h
      simp at h
      exact ⟨s, v, s3, h2, h⟩

theorem read_final_attempt {σ : Type} (rd : σ → List Nat → ReadStep σ)
    (hquiet : ∀ s b e, (rd s b).result = Except.error e →
      e.kind = ErrorKind.Interrupted → (rd s b).buf = b)
    (fuel : Nat) (s : σ) (buf : List Nat) (st : ReadStep σ)
    (h : Retry.read rd fuel s buf = some st) : ∃ s1, rd s1 buf = st := by
  induction fuel generalizing s with
  | zero => simp [Retry.read] at h
  | succ fuel ih =>
    rcases h2 : rd s buf with ⟨res, b, s2⟩
    rcases res with er | n
    · by_cases hk : er.kind = ErrorKind.Interrupted
      · have hb : b = buf := by
          have := hquiet s buf er (by rw [h2]) hk
          rw [h2] at this
          exact this
        rw [Retry.read, h2] at h
        simp [hk] at h
        rw [hb] at h
        exact ih s2 h
      · rw [Retry.read, h2] at h
        simp [hk] at h
        exact ⟨s, by rw [h2, h]⟩
    · rw [Retry.read, h2] at h
      simp at h
      exact ⟨s, by rw [h2, h]⟩

theorem write_final_attempt {σ : Type}
    (wr : σ → List Nat → Except IOError Nat × σ) (fuel : Nat) (s : σ)
    (buf : List Nat) (r : Except IOError Nat × σ)
    (h : Retry.write wr fuel s buf = some r) : ∃ s1, wr s1 buf = r := by
  induction fuel generalizing s with
  | zero => simp [Retry.write] at h
  | succ fuel ih =>
    rcases h2 : wr s buf with ⟨res, s2⟩
    rcases res with er | n
    · by_cases hk : er.kind = ErrorKind.Interrupted
      · rw [Retry.write, h2] at h
        simp [hk] at h
        exact ih s2 h
      · rw [Retry.write, h2] at h
        simp [hk] at h
        exact ⟨s, by rw [h2, h]⟩
    · rw [Retry.write, h2] at h
      simp at h
      exact ⟨s, by rw [h2, h]⟩

theorem readTrace_args_const {σ : Type} (rd : σ → List Nat → ReadStep σ)
    (hquiet : ∀ s b e, (rd s b).result = Except.error e →
      e.kind = ErrorKind.Interrupted → (rd s b).buf = b)
    (fuel : Nat) (s : σ) (buf : List Nat) :
    ∀ a ∈ (Retry.readTrace rd fuel s buf).2, a = buf := by
  induction fuel generalizing s with
  | zero => simp [Retry.readTrace]
  | succ fuel ih =>
    rcases h2 : rd s buf with ⟨res, b, s2⟩
    rcases res with er | n
    · by_cases hk : er.kind = ErrorKind.Interrupted
      · have hb : b = buf := by
          have := hquiet s buf er (by rw [h2]) hk
          rw [h2] at this
          exact this
        rw [Retry.readTrace, h2]
        simp only [hk, if_pos rfl]
        intro a ha
        rcases List.mem_cons.1 ha with h3 | h3
        · exact h3
        · rw [hb] at h3
          exact ih s2 a h3
      · rw [Retry.readTrace, h2]
        simp [hk]
    · rw [Retry.readTrace, h2]
      simp

theorem writeTrace_args_const {σ : Type}
    (wr : σ → List Nat → Except IOError Nat × σ)
    (fuel : Nat) (s : σ) (buf : List Nat) :
    ∀ a ∈ (Retry.writeTrace wr fuel s buf).2, a = buf := by
  induction fuel generalizing s with
  | zero => simp [Retry.writeTrace]
  | succ fuel ih =>
    rcases h2 : wr s buf with ⟨res, s2⟩
    rcases res with er | n
    · by_cases hk : er.kind = ErrorKind.Interrupted
      · rw [Retry.writeTrace, h2]
        simp only [hk, if_pos rfl]
        intro a ha
        rcases List.mem_cons.1 ha with h3 | h3
        · exact h3
        · exact ih s2 a h3
      · rw [Retry.writeTrace, h2]
        simp [hk]
    · rw [Retry.writeTrace, h2]
      simp

theorem read_always_interrupted_diverges (fuel : Nat) (buf : List Nat) :
    Retry.read alwaysInterruptedRead fuel () buf = none := by
  induction fuel generalizing buf with
  | zero => rfl
  | succ fuel ih => simp [Retry.read, alwaysInterruptedRead, ih]

theorem write_always_interrupted_diverges (fuel : Nat) (buf : List Nat) :
    Retry.write alwaysInterruptedWrite fuel () buf = none := by
  induction fuel with
  | zero => rfl
  | succ fuel ih => simp [Retry.write, alwaysInterruptedWrite, ih]

theorem fill_always_interrupted_diverges (fuel : Nat) :
    Retry.fill_buf alwaysInterruptedFill fuel () = none := by
  induction fuel with
  | zero => rfl
  | succ fuel ih => simp [Retry.fill_buf, alwaysInterruptedFill, ih]

theorem scriptRead_quiet : ∀ (s : List ReadOp) (b : List Nat) (e : IOError),
    (scriptRead s b).result = Except.error e → e.kind = ErrorKind.Interrupted →
    (scriptRead s b).buf = b := by
  intro s b e h _
  cases s with
  | nil => rfl
  | cons op rest =>
    cases op with
    | ok n b2 => simp [scriptRead] at h
    | err e2 => rfl

/-- C1: for an underlying outcome sequence of k Interrupted failures
followed by exactly one terminal outcome (a success count, zero included,
or an error of any other kind), the wrapper's read primitive and write
primitive each return exactly that terminal outcome, and the number of
underlying attempts made is k + 1. -/
theorem c1_read_write_terminal_outcome
    (pre preW : List IOError)
    (hpre : ∀ e ∈ pre, e.kind = ErrorKind.Interrupted)
    (hpreW : ∀ e ∈ preW, e.kind = ErrorKind.Interrupted)
    (t : ReadOp) (ht : ∀ e, t = ReadOp.err e → e.kind ≠ ErrorKind.Interrupted)
    (tW : WriteOp)
    (htW : ∀ e, tW = WriteOp.err e → e.kind ≠ ErrorKind.Interrupted)
    (buf bufW : List Nat) (fuel fuelW : Nat)
    (hfuel : pre.length < fuel) (hfuelW : preW.length < fuelW) :
    Retry.read scriptRead fuel (pre.map ReadOp.err ++ [t]) buf
      = some ⟨t.result, t.bufAfter buf, []⟩
    ∧ (Retry.readTrace scriptRead fuel (pre.map ReadOp.err ++ [t]) buf).2.length
      = pre.length + 1
    ∧ Retry.write scriptWrite fuelW (preW.map WriteOp.err ++ [tW]) bufW
      = some (tW.result, [])
    ∧ (Retry.writeTrace scriptWrite fuelW
        (preW.map WriteOp.err ++ [tW]) bufW).2.length = preW.length + 1 := by
  have hr := readTrace_script pre hpre t ht [] buf fuel hfuel
  have hw := writeTrace_script preW hpreW tW htW [] bufW fuelW hfuelW
  refine ⟨?_, ?_, ?_, ?_⟩
  · rw [← readTrace_fst, hr]
  · rw [hr]
    simp
  · rw [← writeTrace_fst, hw]
  · rw [hw]
    simp

theorem c1_witness :
    Retry.read scriptRead 3
      [ReadOp.err ⟨ErrorKind.Interrupted, 5⟩,
        ReadOp.err ⟨ErrorKind.Interrupted, 6⟩, ReadOp.ok 9 [1, 2, 3]]
      [0, 0, 0] = some ⟨Except.ok 9, [1, 2, 3], []⟩
    ∧ (Retry.readTrace scriptRead 3
        [ReadOp.err ⟨ErrorKind.Interrupted, 5⟩,
          ReadOp.err ⟨ErrorKind.Interrupted, 6⟩, ReadOp.ok 9 [1, 2, 3]]
        [0, 0, 0]).2.length = 3
    ∧ Retry.write scriptWrite 2
        [WriteOp.err ⟨ErrorKind.Interrupted, 1⟩,
          WriteOp.err ⟨ErrorKind.PermissionDenied, 4⟩] [7, 7]
        = some (Except.error ⟨ErrorKind.PermissionDenied, 4⟩, [])
    ∧ (Retry.writeTrace scriptWrite 2
        [WriteOp.err ⟨ErrorKind.Interrupted, 1⟩,
          WriteOp.err ⟨ErrorKind.PermissionDenied, 4⟩] [7, 7]).2.length = 2 :=
  c1_read_write_terminal_outcome
    [⟨ErrorKind.Interrupted, 5⟩, ⟨ErrorKind.Interrupted, 6⟩]
    [⟨ErrorKind.Interrupted, 1⟩]
    (by intro e he; rcases List.mem_cons.1 he with h | h
        · rw [h]
        · rw [List.mem_singleton.1 h])
    (by intro e he; rw [List.mem_singleton.1 he])
    (ReadOp.ok 9 [1, 2, 3]) (by intro e he; exact ReadOp.noConfusion he)
    (WriteOp.err ⟨ErrorKind.PermissionDenied, 4⟩)
    (by intro e he; injection he with h; rw [← h]; decide)
    [0, 0, 0] [7, 7] 3 2 (by decide) (by decide)

/-- C2: `fill_buf` retries the underlying refill while it fails with kind
Interrupted, stops on any other outcome (a non-Interrupted error is
returned to the caller), and after a loop ending in success it queries the
underlying `fill_buf` exactly once more and returns that result; for k
Interrupted failures followed by a success the underlying fill is invoked
k + 2 times. -/
theorem c2_fill_buf_retry_and_requery
    (pre preE : List IOError)
    (hpre : ∀ e ∈ pre, e.kind = ErrorKind.Interrupted)
    (hpreE : ∀ e ∈ preE, e.kind = ErrorKind.Interrupted)
    (v : List Nat) (rest : List FillOp) (e : IOError)
    (he : e.kind ≠ ErrorKind.Interrupted) (restE : List FillOp)
    (fuel fuelE : Nat) (hfuel : pre.length < fuel)
    (hfuelE : preE.length < fuelE) :
    Retry.fill_buf scriptFill fuel (pre.map FillOp.err ++ FillOp.ok v :: rest)
      = some (scriptFill rest)
    ∧ (Retry.fillCount scriptFill fuel
        (pre.map FillOp.err ++ FillOp.ok v :: rest)).2 = pre.length + 2
    ∧ Retry.fill_buf scriptFill fuelE
        (preE.map FillOp.err ++ FillOp.err e :: restE)
      = some (Except.error e, restE)
    ∧ (Retry.fillCount scriptFill fuelE
        (preE.map FillOp.err ++ FillOp.err e :: restE)).2
      = preE.length + 1 := by
  have hok := fillCount_script_ok pre hpre v rest fuel hfuel
  have herr := fillCount_script_err preE hpreE e he restE fuelE hfuelE
  refine ⟨?_, ?_, ?_, ?_⟩
  · rw [← fillCount_fst, hok]
  · rw [hok]
  · rw [← fillCount_fst, herr]
  · rw [herr]

theorem c2_witness :
    Retry.fill_buf scriptFill 2
      [FillOp.err ⟨ErrorKind.Interrupted, 2⟩, FillOp.ok [8, 8],
        FillOp.ok [9]]
      = some (Except.ok [9], [])
    ∧ (Retry.fillCount scriptFill 2
        [FillOp.err ⟨ErrorKind.Interrupted, 2⟩, FillOp.ok [8, 8],
          FillOp.ok [9]]).2 = 3
    ∧ Retry.fill_buf scriptFill 1 [FillOp.err ⟨ErrorKind.NotFound, 3⟩]
      = some (Except.error ⟨ErrorKind.NotFound, 3⟩, [])
    ∧ (Retry.fillCount scriptFill 1
        [FillOp.err ⟨ErrorKind.NotFound, 3⟩]).2 = 1 :=
  c2_fill_buf_retry_and_requery [⟨ErrorKind.Interrupted, 2⟩] []
    (by intro e he; rw [List.mem_singleton.1 he]) (by intro e he; simp at he)
    [8, 8] [FillOp.ok [9]] ⟨ErrorKind.NotFound, 3⟩ (by decide) [] 2 1
    (by decide) (by decide)

/-- C3: for each primitive (read, refill, write), when an underlying
attempt fails with a non-Interrupted error after any run of Interrupted
failures, the wrapper returns that exact error value (kind and payload
unchanged) on its first occurrence, the attempt count is the number of
Interrupted failures plus one, and the remainder of the underlying script
is left untouched (zero further attempts). -/
theorem c3_first_non_interrupted_error_propagates
    (pre preF preW : List IOError)
    (hpre : ∀ x ∈ pre, x.kind = ErrorKind.Interrupted)
    (hpreF : ∀ x ∈ preF, x.kind = ErrorKind.Interrupted)
    (hpreW : ∀ x ∈ preW, x.kind = ErrorKind.Interrupted)
    (e eF eW : IOError) (he : e.kind ≠ ErrorKind.Interrupted)
    (heF : eF.kind ≠ ErrorKind.Interrupted)
    (heW : eW.kind ≠ ErrorKind.Interrupted)
    (rest : List ReadOp) (restF : List FillOp) (restW : List WriteOp)
    (buf bufW : List Nat) (fuel fuelF fuelW : Nat)
    (hfuel : pre.length < fuel) (hfuelF : preF.length < fuelF)
    (hfuelW : preW.length < fuelW) :
    Retry.read scriptRead fuel (pre.map ReadOp.err ++ ReadOp.err e :: rest) buf
      = some ⟨Except.error e, buf, rest⟩
    ∧ (Retry.readTrace scriptRead fuel
        (pre.map ReadOp.err ++ ReadOp.err e :: rest) buf).2.length
      = pre.length + 1
    ∧ Retry.fill_buf scriptFill fuelF
        (preF.map FillOp.err ++ FillOp.err eF :: restF)
      = some (Except.error eF, restF)
    ∧ (Retry.fillCount scriptFill fuelF
        (preF.map FillOp.err ++ FillOp.err eF :: restF)).2 = preF.length + 1
    ∧ Retry.write scriptWrite fuelW
        (preW.map WriteOp.err ++ WriteOp.err eW :: restW) bufW
      = some (Except.error eW, restW)
    ∧ (Retry.writeTrace scriptWrite fuelW
        (preW.map WriteOp.err ++ WriteOp.err eW :: restW) bufW).2.length
      = preW.length + 1 := by
  have hr := readTrace_script pre hpre (ReadOp.err e)
    (fun e2 he2 => by injection he2 with h; rw [← h]; exact he)
    rest buf fuel hfuel
  have hf := fillCount_script_err preF hpreF eF heF restF fuelF hfuelF
  have hw := writeTrace_script preW hpreW (WriteOp.err eW)
    (fun e2 he2 => by injection he2 with h; rw [← h]; exact heW)
    restW bufW fuelW hfuelW
  refine ⟨?_, ?_, ?_, ?_, ?_, ?_⟩
  · rw [← readTrace_fst, hr]
    rfl
  · rw [hr]
    simp
  · rw [← fillCount_fst, hf]
  · rw [hf]
  · rw [← writeTrace_fst, hw]
    rfl
  · rw [hw]
    simp

theorem c3_witness :
    Retry.read scriptRead 2
      [ReadOp.err ⟨ErrorKind.Interrupted, 1⟩,
        ReadOp.err ⟨ErrorKind.PermissionDenied, 9⟩, ReadOp.ok 4 [4]]
      [0] = some ⟨Except.error ⟨ErrorKind.PermissionDenied, 9⟩, [0],
        [ReadOp.ok 4 [4]]⟩
    ∧ (Retry.readTrace scriptRead 2
        [ReadOp.err ⟨ErrorKind.Interrupted, 1⟩,
          ReadOp.err ⟨ErrorKind.PermissionDenied, 9⟩, ReadOp.ok 4 [4]]
        [0]).2.length = 2
    ∧ Retry.fill_buf scriptFill 1
        [FillOp.err ⟨ErrorKind.Other, 8⟩, FillOp.ok [2]]
      = some (Except.error ⟨ErrorKind.Other, 8⟩, [FillOp.ok [2]])
    ∧ (Retry.fillCount scriptFill 1
        [FillOp.err ⟨ErrorKind.Other, 8⟩, FillOp.ok [2]]).2 = 1
    ∧ Retry.write scriptWrite 2
        [WriteOp.err ⟨ErrorKind.Interrupted, 6⟩,
          WriteOp.err ⟨ErrorKind.WouldBlock, 5⟩, WriteOp.ok 3] [3, 3]
      = some (Except.error ⟨ErrorKind.WouldBlock, 5⟩, [WriteOp.ok 3])
    ∧ (Retry.writeTrace scriptWrite 2
        [WriteOp.err ⟨ErrorKind.Interrupted, 6⟩,
          WriteOp.err ⟨ErrorKind.WouldBlock, 5⟩, WriteOp.ok 3]
        [3, 3]).2.length = 2 :=
  c3_first_non_interrupted_error_propagates
    [⟨ErrorKind.Interrupted, 1⟩] [] [⟨ErrorKind.Interrupted, 6⟩]
    (by intro x hx; rw [List.mem_singleton.1 hx]) (by intro x hx; simp at hx)
    (by intro x hx; rw [List.mem_singleton.1 hx])
    ⟨ErrorKind.PermissionDenied, 9⟩ ⟨ErrorKind.Other, 8⟩
    ⟨ErrorKind.WouldBlock, 5⟩ (by decide) (by decide) (by decide)
    [ReadOp.ok 4 [4]] [FillOp.ok [2]] [WriteOp.ok 3] [0] [3, 3] 2 1 2
    (by decide) (by decide) (by decide)

/-- C9: the result of the single re-query `fill_buf` performs after a
successful retry loop is returned to the caller as-is, with no further
retry: the attempt count stays k + 2, and when that final underlying call
fails with any error, Interrupted included, that error is returned. -/
theorem c9_requery_result_returned_as_is
    (pre : List IOError) (hpre : ∀ x ∈ pre, x.kind = ErrorKind.Interrupted)
    (v : List Nat) (q : FillOp) (rest : List FillOp) (fuel : Nat)
    (hfuel : pre.length < fuel) :
    Retry.fill_buf scriptFill fuel
      (pre.map FillOp.err ++ FillOp.ok v :: q :: rest)
      = some (scriptFill (q :: rest))
    ∧ (Retry.fillCount scriptFill fuel
        (pre.map FillOp.err ++ FillOp.ok v :: q :: rest)).2 = pre.length + 2
    ∧ ∀ e, q = FillOp.err e →
        Retry.fill_buf scriptFill fuel
          (pre.map FillOp.err ++ FillOp.ok v :: q :: rest)
          = some (Except.error e, rest) := by
  have hok := fillCount_script_ok pre hpre v (q :: rest) fuel hfuel
  refine ⟨?_, ?_, ?_⟩
  · rw [← fillCount_fst, hok]
  · rw [hok]
  · intro e hq
    rw [← fillCount_fst, hok, hq]
    rfl

theorem c9_witness :
    Retry.fill_buf scriptFill 2
      [FillOp.err ⟨ErrorKind.Interrupted, 1⟩, FillOp.ok [4],
        FillOp.err ⟨ErrorKind.Interrupted, 9⟩]
      = some (scriptFill [FillOp.err ⟨ErrorKind.Interrupted, 9⟩])
    ∧ (Retry.fillCount scriptFill 2
        [FillOp.err ⟨ErrorKind.Interrupted, 1⟩, FillOp.ok [4],
          FillOp.err ⟨ErrorKind.Interrupted, 9⟩]).2 = 3
    ∧ ∀ e, FillOp.err ⟨ErrorKind.Interrupted, 9⟩ = FillOp.err e →
        Retry.fill_buf scriptFill 2
          [FillOp.err ⟨ErrorKind.Interrupted, 1⟩, FillOp.ok [4],
            FillOp.err ⟨ErrorKind.Interrupted, 9⟩]
          = some (Except.error e, []) :=
  c9_requery_result_returned_as_is [⟨ErrorKind.Interrupted, 1⟩]
    (by intro x hx; rw [List.mem_singleton.1 hx]) [4]
    (FillOp.err ⟨ErrorKind.Interrupted, 9⟩) [] 2 (by decide)

/-- C4, counterexample: `fill_buf` CAN return an error of kind Interrupted
to the caller: with an underlying buffered reader whose first fill
succeeds and whose next fill fails with Interrupted, the wrapper's
`fill_buf` returns (it does not loop) and its result is that Interrupted
error. -/
theorem c4_counterexample :
    Retry.fill_buf scriptFill 1
      [FillOp.ok [1], FillOp.err ⟨ErrorKind.Interrupted, 7⟩]
      = some (Except.error ⟨ErrorKind.Interrupted, 7⟩, [])
    ∧ (⟨ErrorKind.Interrupted, 7⟩ : IOError).kind = ErrorKind.Interrupted :=
  ⟨rfl, rfl⟩

/-- C4, amended: the wrapper's read and write primitives never return an
error of kind Interrupted; `fill_buf`'s retry loop never surfaces one
either, but the result of the single post-loop re-query is returned
as-is, so `fill_buf` returns an Interrupted error exactly when the extra
underlying call made after a successful refill loop fails with one. -/
theorem c4_amended_interrupted_never_surfaced
    (σ1 σ2 σ3 : Type) (rd : σ1 → List Nat → ReadStep σ1)
    (wr : σ2 → List Nat → Except IOError Nat × σ2)
    (fb : σ3 → Except IOError (List Nat) × σ3)
    (fuel1 fuel2 fuel3 : Nat) (s1 : σ1) (s2 : σ2) (s3 : σ3)
    (buf bufW : List Nat) (st : ReadStep σ1) (r : Except IOError Nat × σ2)
    (e1 e2 e3 : IOError) (s4 : σ3)
    (h1 : Retry.read rd fuel1 s1 buf = some st)
    (he1 : st.result = Except.error e1)
    (h2 : Retry.write wr fuel2 s2 bufW = some r)
    (he2 : r.1 = Except.error e2)
    (h3 : Retry.fill_buf fb fuel3 s3 = some (Except.error e3, s4))
    (he3 : e3.kind = ErrorKind.Interrupted) :
    e1.kind ≠ ErrorKind.Interrupted
    ∧ e2.kind ≠ ErrorKind.Interrupted
    ∧ ∃ s5 v s6, fb s5 = (Except.ok v, s6)
        ∧ fb s6 = (Except.error e3, s4) :=
  ⟨read_result_not_interrupted rd fuel1 s1 buf st h1 e1 he1,
    write_result_not_interrupted wr fuel2 s2 bufW r h2 e2 he2,
    fill_buf_interrupted_from_requery fb fuel3 s3 e3 s4 h3 he3⟩

theorem c4_witness :
    (⟨ErrorKind.Other, 3⟩ : IOError).kind ≠ ErrorKind.Interrupted
    ∧ (⟨ErrorKind.NotFound, 2⟩ : IOError).kind ≠ ErrorKind.Interrupted
    ∧ ∃ s5 v s6, scriptFill s5 = (Except.ok v, s6)
        ∧ scriptFill s6
          = (Except.error ⟨ErrorKind.Interrupted, 7⟩,
              ([] : List FillOp)) :=
  c4_amended_interrupted_never_surfaced
    (List ReadOp) (List WriteOp) (List FillOp) scriptRead scriptWrite
    scriptFill 1 1 1 [ReadOp.err ⟨ErrorKind.Other, 3⟩]
    [WriteOp.err ⟨ErrorKind.NotFound, 2⟩]
    [FillOp.ok [1], FillOp.err ⟨ErrorKind.Interrupted, 7⟩] [9] [9]
    ⟨Except.error ⟨ErrorKind.Other, 3⟩, [9], []⟩
    (Except.error ⟨ErrorKind.NotFound, 2⟩, []) ⟨ErrorKind.Other, 3⟩
    ⟨ErrorKind.NotFound, 2⟩ ⟨ErrorKind.Interrupted, 7⟩ [] rfl rfl rfl rfl
    rfl rfl

/-- C5: every non-primitive operation of the wrapper (read_to_end,
read_to_string, read_exact, consume, read_until, read_line, flush,
write_all, write_fmt) is the underlying method applied once to the
caller's arguments, its result returned unmodified; instantiating each
with a call-counting method shows exactly one underlying invocation. -/
theorem c5_forwarded_once_unmodified (σ : Type)
    (m1 : σ → List Nat → Except IOError Nat × List Nat × σ)
    (m2 : σ → String → Except IOError Nat × String × σ)
    (m3 : σ → List Nat → Except IOError Unit × List Nat × σ)
    (m4 : σ → Nat → σ)
    (m5 : σ → Nat → List Nat → Except IOError Nat × List Nat × σ)
    (m6 : σ → String → Except IOError Nat × String × σ)
    (m7 : σ → Except IOError Unit × σ)
    (m8 : σ → List Nat → Except IOError Unit × σ)
    (m9 : σ → String → Except IOError Unit × σ)
    (s : σ) (buf : List Nat) (sb : String) (n byte : Nat) (c : Nat) :
    Retry.read_to_end m1 s buf = m1 s buf
    ∧ Retry.read_to_string m2 s sb = m2 s sb
    ∧ Retry.read_exact m3 s buf = m3 s buf
    ∧ Retry.consume m4 s n = m4 s n
    ∧ Retry.read_until m5 s byte buf = m5 s byte buf
    ∧ Retry.read_line m6 s sb = m6 s sb
    ∧ Retry.flush m7 s = m7 s
    ∧ Retry.write_all m8 s buf = m8 s buf
    ∧ Retry.write_fmt m9 s sb = m9 s sb
    ∧ Retry.read_to_end (fun k b => (Except.ok 0, b, k + 1)) c buf
      = (Except.ok 0, buf, c + 1)
    ∧ Retry.read_to_string (fun k b => (Except.ok 0, b, k + 1)) c sb
      = (Except.ok 0, sb, c + 1)
    ∧ Retry.read_exact (fun k b => (Except.ok (), b, k + 1)) c buf
      = (Except.ok (), buf, c + 1)
    ∧ Retry.consume (fun k _ => k + 1) c n = c + 1
    ∧ Retry.read_until (fun k _ b => (Except.ok 0, b, k + 1)) c byte buf
      = (Except.ok 0, buf, c + 1)
    ∧ Retry.read_line (fun k b => (Except.ok 0, b, k + 1)) c sb
      = (Except.ok 0, sb, c + 1)
    ∧ Retry.flush (fun k => (Except.ok (), k + 1)) c = (Except.ok (), c + 1)
    ∧ Retry.write_all (fun k _ => (Except.ok (), k + 1)) c buf
      = (Except.ok (), c + 1)
    ∧ Retry.write_fmt (fun k _ => (Except.ok (), k + 1)) c sb
      = (Except.ok (), c + 1) :=
  ⟨rfl, rfl, rfl, rfl, rfl, rfl, rfl, rfl, rfl, rfl, rfl, rfl, rfl, rfl,
    rfl, rfl, rfl, rfl⟩

/-- C6: wrapping a resource with `Retry::new` and reclaiming it with
`Retry::into_inner` gives back exactly the original value; conversely the
wrapper is fully determined by its single `inner` field, so it holds no
other state. -/
theorem c6_new_into_inner_round_trip (T : Type) (r : T) (w : Retry T) :
    Retry.into_inner (Retry.new r) = r ∧ Retry.new (Retry.into_inner w) = w :=
  ⟨rfl, rfl⟩

/-- C7: during one read or write primitive call, interrupted underlying
attempts leave nothing observable: provided interrupted attempts respect
the Read contract and leave the caller's buffer unchanged, the returned
step (count or error, buffer contents, final state) is exactly the final
underlying attempt applied to the original buffer; for write this holds
with no proviso. -/
theorem c7_interrupted_attempts_unobservable
    (σ1 σ2 : Type) (rd : σ1 → List Nat → ReadStep σ1)
    (wr : σ2 → List Nat → Except IOError Nat × σ2)
    (hquiet : ∀ s b e, (rd s b).result = Except.error e →
      e.kind = ErrorKind.Interrupted → (rd s b).buf = b)
    (fuel1 fuel2 : Nat) (s1 : σ1) (s2 : σ2) (buf bufW : List Nat)
    (st : ReadStep σ1) (r : Except IOError Nat × σ2)
    (h1 : Retry.read rd fuel1 s1 buf = some st)
    (h2 : Retry.write wr fuel2 s2 bufW = some r) :
    (∃ sf, rd sf buf = st) ∧ ∃ sf, wr sf bufW = r :=
  ⟨read_final_attempt rd hquiet fuel1 s1 buf st h1,
    write_final_attempt wr fuel2 s2 bufW r h2⟩

theorem c7_witness :
    (∃ sf, scriptRead sf [0, 0] = ⟨Except.ok 2, [5, 5], []⟩)
    ∧ ∃ sf, scriptWrite sf [1, 2] = (Except.ok 2, []) :=
  c7_interrupted_attempts_unobservable (List ReadOp) (List WriteOp)
    scriptRead scriptWrite scriptRead_quiet 2 2
    [ReadOp.err ⟨ErrorKind.Interrupted, 4⟩, ReadOp.ok 2 [5, 5]]
    [WriteOp.err ⟨ErrorKind.Interrupted, 4⟩, WriteOp.ok 2] [0, 0] [1, 2]
    ⟨Except.ok 2, [5, 5], []⟩ (Except.ok 2, []) rfl rfl

/-- C8: each primitive terminates whenever the underlying resource yields
only finitely many consecutive Interrupted failures before a terminal
outcome (enough fuel yields a result), and if every attempt fails with
Interrupted the loop never returns: every fuel amount yields `none`. -/
theorem c8_termination_and_divergence
    (pre preW preF : List IOError)
    (hpre : ∀ x ∈ pre, x.kind = ErrorKind.Interrupted)
    (hpreW : ∀ x ∈ preW, x.kind = ErrorKind.Interrupted)
    (hpreF : ∀ x ∈ preF, x.kind = ErrorKind.Interrupted)
    (t : ReadOp) (ht : ∀ e, t = ReadOp.err e → e.kind ≠ ErrorKind.Interrupted)
    (tW : WriteOp)
    (htW : ∀ e, tW = WriteOp.err e → e.kind ≠ ErrorKind.Interrupted)
    (tF : FillOp)
    (htF : ∀ e, tF = FillOp.err e → e.kind ≠ ErrorKind.Interrupted)
    (rest : List ReadOp) (restW : List WriteOp) (restF : List FillOp)
    (buf bufW : List Nat) (fuel fuelW fuelF : Nat)
    (hfuel : pre.length < fuel) (hfuelW : preW.length < fuelW)
    (hfuelF : preF.length < fuelF) :
    (Retry.read scriptRead fuel (pre.map ReadOp.err ++ t :: rest) buf).isSome
    ∧ (Retry.write scriptWrite fuelW
        (preW.map WriteOp.err ++ tW :: restW) bufW).isSome
    ∧ (Retry.fill_buf scriptFill fuelF
        (preF.map FillOp.err ++ tF :: restF)).isSome
    ∧ (∀ f b, Retry.read alwaysInterruptedRead f () b = none)
    ∧ (∀ f b, Retry.write alwaysInterruptedWrite f () b = none)
    ∧ ∀ f, Retry.fill_buf alwaysInterruptedFill f () = none := by
  refine ⟨?_, ?_, ?_, read_always_interrupted_diverges,
    write_always_interrupted_diverges, fill_always_interrupted_diverges⟩
  · rw [← readTrace_fst, readTrace_script pre hpre t ht rest buf fuel hfuel]
    rfl
  · rw [← writeTrace_fst,
      writeTrace_script preW hpreW tW htW restW bufW fuelW hfuelW]
    rfl
  · cases tF with
    | ok v =>
      rw [← fillCount_fst, fillCount_script_ok preF hpreF v restF fuelF hfuelF]
      rfl
    | err e =>
      rw [← fillCount_fst,
        fillCount_script_err preF hpreF e (htF e rfl) restF fuelF hfuelF]
      rfl

theorem c8_witness :
    (Retry.read scriptRead 1 [ReadOp.ok 0 []] []).isSome
    ∧ (Retry.write scriptWrite 1 [WriteOp.ok 0] []).isSome
    ∧ (Retry.fill_buf scriptFill 1 [FillOp.ok [6]]).isSome
    ∧ (∀ f b, Retry.read alwaysInterruptedRead f () b = none)
    ∧ (∀ f b, Retry.write alwaysInterruptedWrite f () b = none)
    ∧ ∀ f, Retry.fill_buf alwaysInterruptedFill f () = none :=
  c8_termination_and_divergence [] [] []
    (by intro x hx; simp at hx) (by intro x hx; simp at hx)
    (by intro x hx; simp at hx)
    (ReadOp.ok 0 []) (by intro e he; exact ReadOp.noConfusion he)
    (WriteOp.ok 0) (by intro e he; exact WriteOp.noConfusion he)
    (FillOp.ok [6]) (by intro e he; exact FillOp.noConfusion he)
    [] [] [] [] [] 1 1 1 (by decide) (by decide) (by decide)

/-- C10: within one read or write primitive call, every underlying attempt
is handed exactly the caller's original argument: for write the identical
full byte slice unconditionally; for read the identical buffer provided
interrupted attempts respect the Read contract and leave it unchanged (the
wrapper itself tracks no offset and passes no modified view). -/
theorem c10_same_argument_every_attempt
    (σ1 σ2 : Type) (rd : σ1 → List Nat → ReadStep σ1)
    (wr : σ2 → List Nat → Except IOError Nat × σ2)
    (hquiet : ∀ s b e, (rd s b).result = Except.error e →
      e.kind = ErrorKind.Interrupted → (rd s b).buf = b)
    (fuel1 fuel2 : Nat) (s1 : σ1) (s2 : σ2) (buf bufW : List Nat) :
    (∀ a ∈ (Retry.readTrace rd fuel1 s1 buf).2, a = buf)
    ∧ ∀ a ∈ (Retry.writeTrace wr fuel2 s2 bufW).2, a = bufW :=
  ⟨readTrace_args_const rd hquiet fuel1 s1 buf,
    writeTrace_args_const wr fuel2 s2 bufW⟩

theorem c10_witness :
    (∀ a ∈ (Retry.readTrace scriptRead 3
        [ReadOp.err ⟨ErrorKind.Interrupted, 1⟩,
          ReadOp.err ⟨ErrorKind.Interrupted, 2⟩, ReadOp.ok 1 [3]]
        [0]).2, a = [0])
    ∧ ∀ a ∈ (Retry.writeTrace scriptWrite 3
        [WriteOp.err ⟨ErrorKind.Interrupted, 1⟩,
          WriteOp.err ⟨ErrorKind.Interrupted, 2⟩, WriteOp.ok 1]
        [4, 4]).2, a = [4, 4] :=
  c10_same_argument_every_attempt (List ReadOp) (List WriteOp) scriptRead
    scriptWrite scriptRead_quiet 3 3
    [ReadOp.err ⟨ErrorKind.Interrupted, 1⟩,
      ReadOp.err ⟨ErrorKind.Interrupted, 2⟩, ReadOp.ok 1 [3]]
    [WriteOp.err ⟨ErrorKind.Interrupted, 1⟩,
      WriteOp.err ⟨ErrorKind.Interrupted, 2⟩, WriteOp.ok 1] [0] [4, 4]
